import Mathlib

/-!
Verification of the epoll wrapper library (src/lib.rs).

The library is a thin typed layer over the Linux epoll system calls: interest
and result flag sets (bitflags over u32), a packed event record matching the
kernel ABI, and the create / ctl / wait / close protocol functions. Kernel
calls are modelled either as abstract integer-returning functions (for the
error-propagation facts) or by an explicit kernel contract (for the wait
buffer facts), as documented on each definition.
-/

namespace Epoll

/-- Raw epoll flag bits on the reference x86_64 Linux target, as exposed by
the libc crate and used by the bitflags definitions in src/lib.rs. -/
def EPOLLIN : Nat := 0x001

def EPOLLPRI : Nat := 0x002

def EPOLLOUT : Nat := 0x004

def EPOLLERR : Nat := 0x008

def EPOLLHUP : Nat := 0x010

def EPOLLRDHUP : Nat := 0x2000

def EPOLLEXCLUSIVE : Nat := 2 ^ 28

def EPOLLWAKEUP : Nat := 2 ^ 29

def EPOLLONESHOT : Nat := 2 ^ 30

def EPOLLET : Nat := 2 ^ 31

/-- EPOLL_CLOEXEC = O_CLOEXEC on Linux. -/
def EPOLL_CLOEXEC : Int := 524288

def EPOLL_CTL_ADD : Int := 1

def EPOLL_CTL_DEL : Int := 2

def EPOLL_CTL_MOD : Int := 3

/-- Interest from src/lib.rs: a bitflags struct over u32 holding the
registration interest mask. -/
structure Interest where
  bits : Nat
deriving DecidableEq, Repr

namespace Interest

def READ : Interest := ⟨EPOLLIN⟩

def WRITE : Interest := ⟨EPOLLOUT⟩

def URGENT : Interest := ⟨EPOLLPRI⟩

def ERROR : Interest := ⟨EPOLLERR⟩

def HANG_UP : Interest := ⟨EPOLLHUP⟩

def CLOSED : Interest := ⟨EPOLLRDHUP⟩

def EDGE_TRIGGERED : Interest := ⟨EPOLLET⟩

def ONE_SHOT : Interest := ⟨EPOLLONESHOT⟩

def EXCLUSIVE : Interest := ⟨EPOLLEXCLUSIVE⟩

def WAKE_UP : Interest := ⟨EPOLLWAKEUP⟩

/-- Union of all named Interest flags (the mask bitflags generates as all()). -/
def allBits : Nat :=
  EPOLLIN ||| EPOLLOUT ||| EPOLLPRI ||| EPOLLERR ||| EPOLLHUP ||| EPOLLRDHUP |||
  EPOLLET ||| EPOLLONESHOT ||| EPOLLEXCLUSIVE ||| EPOLLWAKEUP

/-- Interest::empty() from bitflags; also the Default impl in src/lib.rs. -/
def empty : Interest := ⟨0⟩

/-- Interest::from_bits_truncate generated by bitflags: keep the known bits,
drop the rest. -/
def from_bits_truncate (raw : Nat) : Interest := ⟨raw &&& allBits⟩

def readable (s : Interest) : Interest := ⟨s.bits ||| READ.bits⟩

def writable (s : Interest) : Interest := ⟨s.bits ||| WRITE.bits⟩

def urgent (s : Interest) : Interest := ⟨s.bits ||| URGENT.bits⟩

def error (s : Interest) : Interest := ⟨s.bits ||| ERROR.bits⟩

def hang_up (s : Interest) : Interest := ⟨s.bits ||| HANG_UP.bits⟩

def closed (s : Interest) : Interest := ⟨s.bits ||| CLOSED.bits⟩

def edge_triggered (s : Interest) : Interest := ⟨s.bits ||| EDGE_TRIGGERED.bits⟩

def one_shot (s : Interest) : Interest := ⟨s.bits ||| ONE_SHOT.bits⟩

def exclusive (s : Interest) : Interest := ⟨s.bits ||| EXCLUSIVE.bits⟩

def wake_up (s : Interest) : Interest := ⟨s.bits ||| WAKE_UP.bits⟩

end Interest

/-- Events from src/lib.rs: a bitflags struct over u32 holding a result mask;
only the six readiness flags are named, the control-only flags are absent. -/
structure Events where
  bits : Nat
deriving DecidableEq, Repr

namespace Events

def READABLE : Events := ⟨EPOLLIN⟩

def WRITABLE : Events := ⟨EPOLLOUT⟩

def URGENT : Events := ⟨EPOLLPRI⟩

def ERROR : Events := ⟨EPOLLERR⟩

def HANG_UP : Events := ⟨EPOLLHUP⟩

def READ_CLOSED : Events := ⟨EPOLLRDHUP⟩

/-- Union of all named Events flags (the mask bitflags generates as all()). -/
def allBits : Nat :=
  EPOLLIN ||| EPOLLOUT ||| EPOLLPRI ||| EPOLLERR ||| EPOLLHUP ||| EPOLLRDHUP

/-- Events::from_bits_truncate generated by bitflags: keep the known bits,
drop the rest. Total: defined for every raw word. -/
def from_bits_truncate (raw : Nat) : Events := ⟨raw &&& allBits⟩

/-- Events union, the | operator of bitflags. -/
def union (a b : Events) : Events := ⟨a.bits ||| b.bits⟩

/-- Events::contains from bitflags: every bit of f is set in s. -/
def contains (s f : Events) : Bool := s.bits &&& f.bits == f.bits

/-- Events::intersects from bitflags: some bit of f is set in s. -/
def intersects (s f : Events) : Bool := s.bits &&& f.bits != 0

def is_readable (s : Events) : Bool := s.contains READABLE

def is_writable (s : Events) : Bool := s.contains WRITABLE

def is_urgent (s : Events) : Bool := s.contains URGENT

def is_error (s : Events) : Bool := s.contains ERROR

def is_hang_up (s : Events) : Bool := s.contains HANG_UP

def is_read_closed (s : Events) : Bool := s.contains READ_CLOSED

def is_closed (s : Events) : Bool := s.intersects (union HANG_UP READ_CLOSED)

end Events

/-- Rust cast x as u64 applied to an i32: sign-extend to 64 bits and
reinterpret as unsigned. -/
def i32ToU64 (x : Int) : Nat :=
  if 0 ≤ x then x.toNat else (x + 2 ^ 64).toNat

/-- Rust cast x as i32 applied to a u64: truncate to the low 32 bits and
reinterpret as two's-complement signed. -/
def u64ToI32 (x : Nat) : Int :=
  if x % 2 ^ 32 < 2 ^ 31 then ((x % 2 ^ 32 : Nat) : Int)
  else ((x % 2 ^ 32 : Nat) : Int) - 2 ^ 32

/-- The public Event record from src/lib.rs: repr(C), and repr(packed) on
x86_64; config is the u32 flags word, data the u64 payload, in that order. -/
structure Event where
  config : Nat
  data : Nat
deriving DecidableEq, Repr

namespace Event

/-- Event::blank from src/lib.rs. -/
def blank : Event := ⟨0, 0⟩

/-- Event::fd from src/lib.rs: self.data as RawFd. -/
def fd (e : Event) : Int := u64ToI32 e.data

/-- Event::events from src/lib.rs: Events::from_bits_truncate(self.config). -/
def events (e : Event) : Events := Events.from_bits_truncate e.config

/-- Field sizes in declaration order of Event on the reference x86_64 target:
config is a u32 (4 bytes), data a u64 (8 bytes). -/
def fieldSizes : List Nat := [4, 8]

end Event

/-- Offsets assigned by a packed repr(C) struct layout (the x86_64 cfg of
Event): fields in declaration order, every alignment 1, no padding. -/
def packedOffsets : List Nat → List Nat
  | [] => []
  | s :: rest => 0 :: (packedOffsets rest).map (· + s)

/-- Total size of a packed repr(C) struct: the sum of the field sizes, with
no padding between fields or at the end. -/
def packedSize (sizes : List Nat) : Nat := sizes.sum

/-- Modelled from the spec: the kernel ABI epoll_event layout on the reference
x86_64 architecture - a 4-byte flags word at offset 0, an 8-byte payload at
offset 4, 12 bytes total. -/
def kernelAbiFieldSizes : List Nat := [4, 8]

/-- Modelled from the spec: kernel ABI field offsets, flags then payload. -/
def kernelAbiOffsets : List Nat := [0, 4]

/-- Modelled from the spec: kernel ABI record size on x86_64. -/
def kernelAbiSize : Nat := 12

/-- ok_or_get_error from src/lib.rs: a negative syscall return becomes an OS
error carrying the last OS error code; otherwise the value is passed through. -/
def ok_or_get_error (errno : Int) (result : Int) : Except Int Int :=
  if result < 0 then .error errno else .ok result

/-- Flags argument that create passes to epoll_create1. -/
def createFlags (cloexec : Bool) : Int :=
  if cloexec then EPOLL_CLOEXEC else 0

/-- create from src/lib.rs. The kernel epoll_create1 call is abstracted as a
function from the flags argument to its integer return value. -/
def create (kernel_create1 : Int → Int) (errno : Int) (cloexec : Bool) :
    Except Int Int :=
  ok_or_get_error errno (kernel_create1 (createFlags cloexec))

/-- CtlOperation from src/lib.rs. -/
inductive CtlOperation where
  | Add
  | Mod
  | Del
deriving DecidableEq, Repr

/-- The repr(i32) discriminants of CtlOperation. -/
def CtlOperation.toRaw : CtlOperation → Int
  | .Add => EPOLL_CTL_ADD
  | .Mod => EPOLL_CTL_MOD
  | .Del => EPOLL_CTL_DEL

/-- The libc epoll_event value: events word and u64 payload. -/
structure EpollEventRaw where
  events : Nat
  u64 : Nat
deriving DecidableEq, Repr

/-- The record ctl builds and hands to epoll_ctl: events = interest.bits(),
u64 = fd as u64. -/
def ctlRecord (fd : Int) (interest : Interest) : EpollEventRaw :=
  ⟨interest.bits, i32ToU64 fd⟩

/-- ctl from src/lib.rs. The kernel epoll_ctl call is abstracted as a function
of (epfd, op, fd, record) returning its integer result. -/
def ctl (kernel_ctl : Int → Int → Int → EpollEventRaw → Int) (errno : Int)
    (epoll_fd : Int) (operation : CtlOperation) (fd : Int)
    (interest : Interest) : Except Int Unit :=
  match ok_or_get_error errno
      (kernel_ctl epoll_fd operation.toRaw fd (ctlRecord fd interest)) with
  | .error e => .error e
  | .ok _ => .ok ()

/-- add_fd from src/lib.rs. -/
def add_fd (kernel_ctl : Int → Int → Int → EpollEventRaw → Int) (errno : Int)
    (epoll_fd fd : Int) (interest : Interest) : Except Int Unit :=
  ctl kernel_ctl errno epoll_fd .Add fd interest

/-- mod_fd from src/lib.rs. -/
def mod_fd (kernel_ctl : Int → Int → Int → EpollEventRaw → Int) (errno : Int)
    (epoll_fd fd : Int) (interest : Interest) : Except Int Unit :=
  ctl kernel_ctl errno epoll_fd .Mod fd interest

/-- del_fd from src/lib.rs: ctl with Del and an empty interest set. -/
def del_fd (kernel_ctl : Int → Int → Int → EpollEventRaw → Int) (errno : Int)
    (epoll_fd fd : Int) : Except Int Unit :=
  ctl kernel_ctl errno epoll_fd .Del fd Interest.empty

/-- Modelled from the spec: the kernel epoll_wait contract. ready is the list
of records the kernel would deliver, in kernel order. A non-positive
maxevents is rejected (negative return, EINVAL); otherwise the kernel writes
min(ready, maxevents, room) records at the front of the caller buffer, leaves
the rest of the buffer untouched, and returns the count written. -/
def kernel_epoll_wait (ready : List Event) (buf : List Event)
    (maxevents : Int) : Int × List Event :=
  if maxevents ≤ 0 then (-1, buf)
  else
    let n := min (min ready.length maxevents.toNat) buf.length
    ((n : Int), ready.take n ++ buf.drop n)

/-- wait from src/lib.rs: a None timeout becomes -1, the caller buffer is
handed to the kernel in place with its length as maxevents, and the kernel
return goes through ok_or_get_error before being cast to usize. -/
def wait (errno : Int) (ready : List Event) (timeout : Option Int)
    (buf : List Event) : Except Int (Nat × List Event) :=
  let _t := timeout.getD (-1)
  let r := kernel_epoll_wait ready buf (buf.length : Int)
  match ok_or_get_error errno r.1 with
  | .error e => .error e
  | .ok n => .ok (n.toNat, r.2)

/-- close from src/lib.rs. The kernel close call is abstracted as a function
from the descriptor to its integer return value. -/
def close (kernel_close : Int → Int) (errno : Int) (epoll_fd : Int) :
    Except Int Unit :=
  match ok_or_get_error errno (kernel_close epoll_fd) with
  | .error e => .error e
  | .ok _ => .ok ()

/-- EBADF on Linux. -/
def EBADF : Int := 9

/-- Modelled from the spec: the kernel-side descriptor table a handle refers
to (the handle itself is a plain non-owning integer). open_fds lists the live
descriptor numbers. -/
structure Kernel where
  open_fds : List Int
deriving DecidableEq, Repr

namespace Kernel

/-- Modelled from the spec: kernel close - succeeds on a live descriptor and
removes it; fails with EBADF on a dead one. -/
def closeFd (st : Kernel) (fd : Int) : Except Int Unit × Kernel :=
  if fd ∈ st.open_fds then (.ok (), ⟨st.open_fds.erase fd⟩)
  else (.error EBADF, st)

/-- Smallest natural number whose coercion is not in used, searched with
explicit fuel. -/
def freshFrom (used : List Int) : Nat → Nat → Nat
  | 0, n => n
  | fuel + 1, n => if (n : Int) ∈ used then freshFrom used fuel (n + 1) else n

/-- Modelled from the spec and POSIX fd allocation: a new descriptor gets the
smallest unused nonnegative number, so closed numbers are eventually reused. -/
def createFd (st : Kernel) : Int × Kernel :=
  let fd : Int := freshFrom st.open_fds (st.open_fds.length + 1) 0
  (fd, ⟨fd :: st.open_fds⟩)

/-- Modelled from the spec: kernel epoll_wait through a handle - a dead
descriptor is answered with EBADF; a live one with nothing ready and a zero
timeout reports zero events. -/
def waitFd (st : Kernel) (fd : Int) : Except Int Nat :=
  if fd ∈ st.open_fds then .ok 0 else .error EBADF

end Kernel

/-! Helper lemmas on Nat bitwise operations. -/

theorem land_self_eq (a : Nat) : a &&& a = a := by
  apply Nat.eq_of_testBit_eq
  intro i
  simp [Nat.testBit_land]

theorem lor_self_eq (a : Nat) : a ||| a = a := by
  apply Nat.eq_of_testBit_eq
  intro i
  simp [Nat.testBit_lor]

theorem land_zero_eq (a : Nat) : a &&& 0 = 0 := by
  apply Nat.eq_of_testBit_eq
  intro i
  simp [Nat.testBit_land]

theorem lor_right_swap (a b c : Nat) : (a ||| b) ||| c = (a ||| c) ||| b := by
  rw [Nat.lor_assoc, Nat.lor_comm b c, ← Nat.lor_assoc]

/-! Theorems for the claims. -/

/-- C1: on the reference x86_64 architecture the packed Event record has
exactly the kernel ABI layout: flags at offset 0 occupying 4 bytes, payload
at offset 4 occupying 8 bytes, 12 bytes total, and the total is the plain sum
of the field sizes, so there is no padding between or after the fields. -/
theorem event_layout_matches_kernel_abi :
    packedOffsets Event.fieldSizes = kernelAbiOffsets ∧
    Event.fieldSizes = kernelAbiFieldSizes ∧
    packedSize Event.fieldSizes = kernelAbiSize ∧
    packedSize Event.fieldSizes = Event.fieldSizes.sum :=
  ⟨rfl, rfl, rfl, rfl⟩

/-- C3: every public operation is a total function that returns an OS error
wrapping the last OS error code exactly when the abstracted kernel call
returns a negative value, and returns Ok otherwise. -/
theorem operations_wrap_errno_iff_negative
    (kcr : Int → Int) (kctl : Int → Int → Int → EpollEventRaw → Int)
    (kcl : Int → Int) (errno : Int) (cloexec : Bool) (epfd fd : Int)
    (interest : Interest) (ready buf : List Event) (timeout : Option Int) :
    create kcr errno cloexec =
      (if kcr (createFlags cloexec) < 0 then .error errno
       else .ok (kcr (createFlags cloexec))) ∧
    add_fd kctl errno epfd fd interest =
      (if kctl epfd EPOLL_CTL_ADD fd (ctlRecord fd interest) < 0
       then .error errno else .ok ()) ∧
    mod_fd kctl errno epfd fd interest =
      (if kctl epfd EPOLL_CTL_MOD fd (ctlRecord fd interest) < 0
       then .error errno else .ok ()) ∧
    del_fd kctl errno epfd fd =
      (if kctl epfd EPOLL_CTL_DEL fd (ctlRecord fd Interest.empty) < 0
       then .error errno else .ok ()) ∧
    wait errno ready timeout buf =
      (if (kernel_epoll_wait ready buf (buf.length : Int)).1 < 0
       then .error errno
       else .ok ((kernel_epoll_wait ready buf (buf.length : Int)).1.toNat,
                 (kernel_epoll_wait ready buf (buf.length : Int)).2)) ∧
    close kcl errno epfd =
      (if kcl epfd < 0 then .error errno else .ok ()) := by
  refine ⟨?_, ?_, ?_, ?_, ?_, ?_⟩
  · by_cases h : kcr (createFlags cloexec) < 0 <;>
      simp [create, ok_or_get_error, h]
  · by_cases h : kctl epfd EPOLL_CTL_ADD fd (ctlRecord fd interest) < 0 <;>
      simp [add_fd, ctl, ok_or_get_error, CtlOperation.toRaw, h]
  · by_cases h : kctl epfd EPOLL_CTL_MOD fd (ctlRecord fd interest) < 0 <;>
      simp [mod_fd, ctl, ok_or_get_error, CtlOperation.toRaw, h]
  · by_cases h : kctl epfd EPOLL_CTL_DEL fd (ctlRecord fd Interest.empty) < 0 <;>
      simp [del_fd, ctl, ok_or_get_error, CtlOperation.toRaw, h]
  · by_cases h : (kernel_epoll_wait ready buf (buf.length : Int)).1 < 0 <;>
      simp [wait, ok_or_get_error, h]
  · by_cases h : kcl epfd < 0 <;>
      simp [close, ok_or_get_error, h]

/-- C10: wait with a zero-length buffer passes maxevents = 0 to the kernel,
which rejects it, so the call returns an OS error, never a count of 0. -/
theorem wait_empty_buffer_is_error (errno : Int) (ready : List Event)
    (timeout : Option Int) :
    wait errno ready timeout [] = .error errno := by
  rfl

/-- C6: Event::events truncates the raw flags word to the six result flags:
the construction is total, the result is a submask of the union of the six
result flags, and every control-only flag bit (EDGE_TRIGGERED, ONE_SHOT,
EXCLUSIVE, WAKE_UP) is absent from it. -/
theorem events_truncates_to_result_flags (raw d : Nat) :
    Event.events ⟨raw, d⟩ = Events.from_bits_truncate raw ∧
    (Events.from_bits_truncate raw).bits &&& Events.allBits =
      (Events.from_bits_truncate raw).bits ∧
    (Events.from_bits_truncate raw).bits &&& EPOLLET = 0 ∧
    (Events.from_bits_truncate raw).bits &&& EPOLLONESHOT = 0 ∧
    (Events.from_bits_truncate raw).bits &&& EPOLLEXCLUSIVE = 0 ∧
    (Events.from_bits_truncate raw).bits &&& EPOLLWAKEUP = 0 := by
  refine ⟨rfl, ?_, ?_, ?_, ?_, ?_⟩ <;>
    simp only [Events.from_bits_truncate, Nat.land_assoc]
  · rw [land_self_eq]
  · have h : Events.allBits &&& EPOLLET = 0 := by decide
    rw [h, land_zero_eq]
  · have h : Events.allBits &&& EPOLLONESHOT = 0 := by decide
    rw [h, land_zero_eq]
  · have h : Events.allBits &&& EPOLLEXCLUSIVE = 0 := by decide
    rw [h, land_zero_eq]
  · have h : Events.allBits &&& EPOLLWAKEUP = 0 := by decide
    rw [h, land_zero_eq]

/-- C2: a successful wait never returns a count above the buffer capacity,
even when more descriptors are ready, and the buffer it hands back still has
exactly its original number of records. -/
theorem wait_count_le_buffer (errno : Int) (ready : List Event)
    (timeout : Option Int) (buf : List Event) (n : Nat) (out : List Event)
    (h : wait errno ready timeout buf = .ok (n, out)) :
    n ≤ buf.length ∧ out.length = buf.length := by
  by_cases hb : (buf.length : Int) ≤ 0
  · rw [wait] at h
    simp only [kernel_epoll_wait] at h
    rw [if_pos hb] at h
    simp [ok_or_get_error] at h
  · rw [wait] at h
    simp only [kernel_epoll_wait] at h
    rw [if_neg hb] at h
    simp only [ok_or_get_error, Int.toNat_natCast] at h
    rw [if_neg (not_lt.mpr (Int.natCast_nonneg _))] at h
    simp only [Except.ok.injEq, Prod.mk.injEq, Int.toNat_natCast] at h
    obtain ⟨hn, hout⟩ := h
    subst hn
    subst hout
    refine ⟨by omega, ?_⟩
    rw [List.length_append, List.length_take, List.length_drop]
    omega

/-- C9: records at or beyond the returned count are left untouched by wait:
the output buffer agrees with the input buffer at every such index. -/
theorem wait_untouched_beyond_count (errno : Int) (ready : List Event)
    (timeout : Option Int) (buf : List Event) (n : Nat) (out : List Event)
    (h : wait errno ready timeout buf = .ok (n, out)) (i : Nat) (hi : n ≤ i) :
    out[i]? = buf[i]? := by
  by_cases hb : (buf.length : Int) ≤ 0
  · rw [wait] at h
    simp only [kernel_epoll_wait] at h
    rw [if_pos hb] at h
    simp [ok_or_get_error] at h
  · rw [wait] at h
    simp only [kernel_epoll_wait] at h
    rw [if_neg hb] at h
    simp only [ok_or_get_error, Int.toNat_natCast] at h
    rw [if_neg (not_lt.mpr (Int.natCast_nonneg _))] at h
    simp only [Except.ok.injEq, Prod.mk.injEq, Int.toNat_natCast] at h
    obtain ⟨hn, hout⟩ := h
    subst hn
    subst hout
    rw [List.getElem?_append_right (by rw [List.length_take]; omega),
      List.length_take, List.getElem?_drop]
    congr 1
    omega

/-- C4: ctl stores the sign-extended fd as the kernel payload, and Event::fd
recovers exactly the registered fd: the i32 to u64 to i32 conversion is the
identity on the whole i32 range. -/
theorem payload_round_trip (fd : Int) (h1 : -(2 ^ 31) ≤ fd) (h2 : fd < 2 ^ 31)
    (interest : Interest) (cfg : Nat) :
    (ctlRecord fd interest).u64 = i32ToU64 fd ∧
    Event.fd ⟨cfg, (ctlRecord fd interest).u64⟩ = fd := by
  refine ⟨rfl, ?_⟩
  show u64ToI32 (i32ToU64 fd) = fd
  unfold i32ToU64 u64ToI32
  norm_num at h1 h2 ⊢
  split <;> split <;> omega

/-- C4 witness: the round trip is the identity at the negative fd -1. -/
theorem payload_round_trip_witness :
    (ctlRecord (-1) Interest.empty).u64 = i32ToU64 (-1) ∧
    Event.fd ⟨0, (ctlRecord (-1) Interest.empty).u64⟩ = -1 :=
  payload_round_trip (-1) (by norm_num) (by norm_num) Interest.empty 0

/-- The list of builder-style chaining methods of Interest from src/lib.rs. -/
def interestBuilders : List (Interest → Interest) :=
  [Interest.readable, Interest.writable, Interest.urgent, Interest.error,
   Interest.hang_up, Interest.closed, Interest.edge_triggered,
   Interest.one_shot, Interest.exclusive, Interest.wake_up]

theorem interestBuilders_are_or (f : Interest → Interest)
    (hf : f ∈ interestBuilders) :
    ∃ c : Nat, ∀ s : Interest, f s = ⟨s.bits ||| c⟩ := by
  simp only [interestBuilders, List.mem_cons, List.not_mem_nil, or_false] at hf
  rcases hf with hf | hf | hf | hf | hf | hf | hf | hf | hf | hf <;> subst hf
  · exact ⟨Interest.READ.bits, fun s => rfl⟩
  · exact ⟨Interest.WRITE.bits, fun s => rfl⟩
  · exact ⟨Interest.URGENT.bits, fun s => rfl⟩
  · exact ⟨Interest.ERROR.bits, fun s => rfl⟩
  · exact ⟨Interest.HANG_UP.bits, fun s => rfl⟩
  · exact ⟨Interest.CLOSED.bits, fun s => rfl⟩
  · exact ⟨Interest.EDGE_TRIGGERED.bits, fun s => rfl⟩
  · exact ⟨Interest.ONE_SHOT.bits, fun s => rfl⟩
  · exact ⟨Interest.EXCLUSIVE.bits, fun s => rfl⟩
  · exact ⟨Interest.WAKE_UP.bits, fun s => rfl⟩

/-- C7: an interest set made only of named flags round-trips through its raw
bitmask, and the builder chaining methods are idempotent and commute with one
another, as union must. -/
theorem interest_roundtrip_and_builder_algebra (s : Interest) :
    (s.bits &&& Interest.allBits = s.bits →
      Interest.from_bits_truncate s.bits = s) ∧
    ∀ f ∈ interestBuilders, ∀ g ∈ interestBuilders,
      f (f s) = f s ∧ f (g s) = g (f s) := by
  constructor
  · intro hsub
    unfold Interest.from_bits_truncate
    cases s with
    | mk b => simpa using hsub
  · intro f hf g hg
    obtain ⟨c, hc⟩ := interestBuilders_are_or f hf
    obtain ⟨d, hd⟩ := interestBuilders_are_or g hg
    constructor
    · simp only [hc]
      exact congrArg Interest.mk (by rw [Nat.lor_assoc, lor_self_eq])
    · simp only [hc, hd]
      exact congrArg Interest.mk (lor_right_swap s.bits d c)

/-- C7 witness: round trip and the builder algebra at concrete sets, with
readable and writable as the two builder methods. -/
theorem interest_roundtrip_and_builder_algebra_witness :
    Interest.from_bits_truncate (Interest.readable Interest.empty).bits =
      Interest.readable Interest.empty ∧
    Interest.readable (Interest.readable Interest.empty) =
      Interest.readable Interest.empty ∧
    Interest.readable (Interest.writable Interest.empty) =
      Interest.writable (Interest.readable Interest.empty) := by
  refine ⟨?_, ?_, ?_⟩
  · exact (interest_roundtrip_and_builder_algebra
      (Interest.readable Interest.empty)).1 (by decide)
  · exact ((interest_roundtrip_and_builder_algebra Interest.empty).2
      Interest.readable (by simp [interestBuilders])
      Interest.readable (by simp [interestBuilders])).1
  · exact ((interest_roundtrip_and_builder_algebra Interest.empty).2
      Interest.readable (by simp [interestBuilders])
      Interest.writable (by simp [interestBuilders])).2

theorem land_two_pow_eq_iff (x k : Nat) :
    x &&& 2 ^ k = 2 ^ k ↔ x.testBit k = true := by
  constructor
  · intro h
    have h2 := congrArg (fun t => t.testBit k) h
    simp only [Nat.testBit_land, Nat.testBit_two_pow_self, Bool.and_true] at h2
    exact h2
  · intro h
    apply Nat.eq_of_testBit_eq
    intro i
    rw [Nat.testBit_land]
    by_cases hik : k = i
    · subst hik
      simp [h, Nat.testBit_two_pow_self]
    · simp [Nat.testBit_two_pow_of_ne hik]

theorem land_lor_two_pow_ne_zero (x j k : Nat) :
    x &&& (2 ^ j ||| 2 ^ k) ≠ 0 ↔
      (x.testBit j = true ∨ x.testBit k = true) := by
  constructor
  · intro h
    obtain ⟨i, hi⟩ := Nat.ne_zero_implies_bit_true h
    rw [Nat.testBit_land, Nat.testBit_lor] at hi
    obtain ⟨hxi, hjk⟩ := (Bool.and_eq_true _ _).mp hi
    rcases (Bool.or_eq_true _ _).mp hjk with hj | hk
    · left
      have hji : j = i := by
        by_contra hne
        rw [Nat.testBit_two_pow_of_ne hne] at hj
        cases hj
      rw [hji]
      exact hxi
    · right
      have hki : k = i := by
        by_contra hne
        rw [Nat.testBit_two_pow_of_ne hne] at hk
        cases hk
      rw [hki]
      exact hxi
  · rintro (h | h) <;> intro h0
    · have h2 := congrArg (fun t => t.testBit j) h0
      simp [Nat.testBit_land, Nat.testBit_lor, Nat.testBit_two_pow_self,
        h] at h2
    · have h2 := congrArg (fun t => t.testBit k) h0
      simp [Nat.testBit_land, Nat.testBit_lor, Nat.testBit_two_pow_self,
        h] at h2

/-- C8: each named predicate of Events holds exactly when its flag is
contained in the set, and the derived is_closed holds exactly when HANG_UP or
READ_CLOSED is contained; all predicates are total and take the set by value. -/
theorem events_named_predicates (e : Events) :
    (e.is_readable ↔ e.contains Events.READABLE) ∧
    (e.is_writable ↔ e.contains Events.WRITABLE) ∧
    (e.is_urgent ↔ e.contains Events.URGENT) ∧
    (e.is_error ↔ e.contains Events.ERROR) ∧
    (e.is_hang_up ↔ e.contains Events.HANG_UP) ∧
    (e.is_read_closed ↔ e.contains Events.READ_CLOSED) ∧
    (e.is_closed ↔
      (e.contains Events.HANG_UP ∨ e.contains Events.READ_CLOSED)) := by
  refine ⟨Iff.rfl, Iff.rfl, Iff.rfl, Iff.rfl, Iff.rfl, Iff.rfl, ?_⟩
  simp only [Events.is_closed, Events.intersects, Events.contains,
    Events.union, Events.HANG_UP, Events.READ_CLOSED, bne_iff_ne, ne_eq,
    beq_iff_eq]
  rw [show EPOLLHUP = 2 ^ 4 by norm_num [EPOLLHUP],
    show EPOLLRDHUP = 2 ^ 13 by norm_num [EPOLLRDHUP]]
  constructor
  · intro h
    exact ((land_lor_two_pow_ne_zero _ 4 13).mp h).imp
      (land_two_pow_eq_iff _ 4).mpr (land_two_pow_eq_iff _ 13).mpr
  · intro h
    exact (land_lor_two_pow_ne_zero _ 4 13).mpr
      (h.imp (land_two_pow_eq_iff _ 4).mp (land_two_pow_eq_iff _ 13).mp)

/-- C5 counterexample: the handle is a plain integer the layer does not
consume. From a kernel state with descriptors 0, 1, 2, 3 live, closing
handle 3 succeeds, yet the same handle value can still be passed to wait -
the call reaches the kernel and is answered with EBADF rather than being
prevented - and once the kernel reuses number 3 for a new instance, a wait
through the stale handle even succeeds against the wrong resource. -/
theorem close_does_not_prevent_reuse :
    (Kernel.closeFd ⟨[0, 1, 2, 3]⟩ 3).1 = .ok () ∧
    Kernel.waitFd (Kernel.closeFd ⟨[0, 1, 2, 3]⟩ 3).2 3 = .error EBADF ∧
    (Kernel.createFd (Kernel.closeFd ⟨[0, 1, 2, 3]⟩ 3).2).1 = 3 ∧
    Kernel.waitFd (Kernel.createFd (Kernel.closeFd ⟨[0, 1, 2, 3]⟩ 3).2).2 3 =
      .ok 0 := by
  refine ⟨rfl, rfl, rfl, rfl⟩

/-- C5 amended: close does not consume the handle and later calls through it
are still forwarded to the kernel (a post-close wait is answered with EBADF,
not rejected by this layer); a valid handle is retired by exactly one close -
the first close of a live descriptor succeeds and a second close of the same
handle fails with an OS error. -/
theorem close_retires_handle_exactly_once (st : Kernel) (fd : Int)
    (hnd : st.open_fds.Nodup) (hmem : fd ∈ st.open_fds) :
    (st.closeFd fd).1 = .ok () ∧
    Kernel.waitFd (st.closeFd fd).2 fd = .error EBADF ∧
    ((st.closeFd fd).2.closeFd fd).1 = .error EBADF := by
  have hne : fd ∉ st.open_fds.erase fd := by
    intro hmem2
    exact ((List.Nodup.mem_erase_iff hnd).mp hmem2).1 rfl
  refine ⟨?_, ?_, ?_⟩
  · unfold Kernel.closeFd
    rw [if_pos hmem]
  · unfold Kernel.closeFd Kernel.waitFd
    rw [if_pos hmem]
    exact if_neg hne
  · unfold Kernel.closeFd
    rw [if_pos hmem, if_neg hne]

/-- C5 amended witness: the single-retirement behavior at the concrete state
with only descriptor 3 live. -/
theorem close_retires_handle_exactly_once_witness :
    (Kernel.closeFd ⟨[3]⟩ 3).1 = .ok () ∧
    Kernel.waitFd (Kernel.closeFd ⟨[3]⟩ 3).2 3 = .error EBADF ∧
    ((Kernel.closeFd ⟨[3]⟩ 3).2.closeFd 3).1 = .error EBADF :=
  close_retires_handle_exactly_once ⟨[3]⟩ 3 (by decide) (by decide)

/-- C2 witness: three ready records against a two-slot buffer yield exactly
count 2 into a buffer that still has two records. -/
theorem wait_count_le_buffer_witness :
    (2 : Nat) ≤ ([Event.blank, Event.blank] : List Event).length ∧
    ([Event.mk 1 1, Event.mk 1 2] : List Event).length =
      ([Event.blank, Event.blank] : List Event).length :=
  wait_count_le_buffer 7 [⟨1, 1⟩, ⟨1, 2⟩, ⟨1, 3⟩] none
    [Event.blank, Event.blank] 2 [⟨1, 1⟩, ⟨1, 2⟩] rfl

/-- C9 witness: with one ready record and a two-slot buffer, slot 1 keeps its
prior contents. -/
theorem wait_untouched_beyond_count_witness :
    ([Event.mk 1 5, Event.blank] : List Event)[1]? =
      ([Event.blank, Event.blank] : List Event)[1]? :=
  wait_untouched_beyond_count 7 [⟨1, 5⟩] none [Event.blank, Event.blank] 1
    [⟨1, 5⟩, Event.blank] rfl 1 (by norm_num)

end Epoll
